import Mathlib

/-!
Shallow embedding of `src/bot.js` from the `connect` repository: a CLI batch
runner that derives a TON wallet address from a seed phrase and connects,
disconnects or displays wallets on several tap-to-earn platforms.

External collaborators (the `@ton` crypto/contract library, the four platform
service clients, the file system and the console) are out of scope per the
spec; they are modelled as environment records of total or `Except`-valued
functions, so that the control flow of `bot.js` itself is embedded faithfully.
-/

namespace Connect

/-- Decidable equality for `Except`, to evaluate the model on closed inputs. -/
instance {α β : Type} [DecidableEq α] [DecidableEq β] : DecidableEq (Except α β) := fun x y =>
  match x, y with
  | .ok a, .ok b => if h : a = b then .isTrue (by rw [h]) else .isFalse (by simp [h])
  | .error a, .error b => if h : a = b then .isTrue (by rw [h]) else .isFalse (by simp [h])
  | .ok _, .error _ => .isFalse (by simp)
  | .error _, .ok _ => .isFalse (by simp)

/-- A key pair as returned by `mnemonicToWalletKey` (byte lists). -/
structure KeyPair where
  publicKey : List Nat
  secretKey : List Nat
  deriving Repr, DecidableEq

/-- The three wallet contract classes used in the `switch` of
`getWalletAddressFromSeed`. -/
inductive WalletKind
  | v3r2
  | v4
  | v5
  deriving Repr, DecidableEq

/-- The argument object of `WalletContractV*.create({workchain, publicKey, walletId})`. -/
structure CreateArgs where
  workchain : Int
  publicKey : List Nat
  walletId : Nat
  deriving Repr, DecidableEq

/-- The argument object of `wallet.address.toString({urlSafe, bounceable})`. -/
structure AddrOpts where
  urlSafe : Bool
  bounceable : Bool
  deriving Repr, DecidableEq

/-- Environment for the external `@ton` library, out of scope per the spec.
`W` is the (abstract) type of wallet contract objects.
`mnemonicToWalletKey` is total: the library derives keys by hashing without
validating the mnemonic. -/
structure TonEnv (W : Type) where
  mnemonicToWalletKey : List String → KeyPair
  create : WalletKind → CreateArgs → W
  addressToString : W → AddrOpts → String

/-- `const DEFAULT_WALLET_ID = 698983191;` (bot.js line 23). -/
def DEFAULT_WALLET_ID : Nat := 698983191

/-- JS whitespace (the ASCII characters relevant to this repository's inputs). -/
def jsWhitespace (c : Char) : Bool :=
  c = ' ' || c = '\t' || c = '\n' || c = '\r'

/-- JS `String.prototype.trim()`: drop whitespace from both ends. -/
def jsTrim (s : String) : String :=
  String.mk (((s.data.dropWhile jsWhitespace).reverse.dropWhile jsWhitespace).reverse)

/-- JS `String.prototype.split(sep)` for a one-character separator, on the
character list: consecutive separators produce empty fragments and the empty
string yields `[[]]`, exactly as in JS. -/
def splitOnChar (sep : Char) : List Char → List (List Char)
  | [] => [[]]
  | c :: cs =>
    if c = sep then [] :: splitOnChar sep cs
    else
      match splitOnChar sep cs with
      | [] => [[c]]
      | w :: ws => (c :: w) :: ws

/-- JS `s.split(sep)` for a one-character separator. -/
def jsSplit (sep : Char) (s : String) : List String :=
  (splitOnChar sep s.data).map String.mk

/-- JS `String.prototype.toLowerCase()` (ASCII). -/
def jsToLower (s : String) : String :=
  String.mk (s.data.map Char.toLower)

/-- `async function getWalletAddressFromSeed(mnemonic, version)` (bot.js
lines 29-66): switch on `version.toLowerCase()`, create the wallet contract
with `workchain = 0` and `walletId = DEFAULT_WALLET_ID`, return
`wallet.address.toString({urlSafe: true, bounceable: false})`; the default
branch throws `Unsupported wallet version`, rethrown by the catch as
`Error generating wallet address: ...`. -/
def getWalletAddressFromSeed {W : Type} (env : TonEnv W)
    (mnemonic : List String) (version : String) : Except String String :=
  let keyPair := env.mnemonicToWalletKey mnemonic
  let workchain : Int := 0
  if jsToLower version = "v3r2" then
    .ok (env.addressToString
      (env.create .v3r2 ⟨workchain, keyPair.publicKey, DEFAULT_WALLET_ID⟩)
      ⟨true, false⟩)
  else if jsToLower version = "v4" then
    .ok (env.addressToString
      (env.create .v4 ⟨workchain, keyPair.publicKey, DEFAULT_WALLET_ID⟩)
      ⟨true, false⟩)
  else if jsToLower version = "v5" then
    .ok (env.addressToString
      (env.create .v5 ⟨workchain, keyPair.publicKey, DEFAULT_WALLET_ID⟩)
      ⟨true, false⟩)
  else
    .error "Error generating wallet address: Unsupported wallet version"

/-- Hexadecimal digit for a value below 16, as `Buffer.toString('hex')`
produces (lowercase). -/
def hexDigit (n : Nat) : Char :=
  if n < 10 then Char.ofNat (48 + n) else Char.ofNat (87 + n)

/-- Two-digit lowercase hex rendering of one byte. -/
def byteToHex (b : Nat) : String :=
  String.mk [hexDigit (b / 16 % 16), hexDigit (b % 16)]

/-- `Buffer.from(bytes).toString('hex')`. -/
def bufferToHex (bs : List Nat) : String :=
  String.join (bs.map byteToHex)

/-- The object `{ address, private_key }` returned by `processWalletData`.
For PAWS entries built inside `processWallets` only `address` is present. -/
structure ProcessedWallet where
  address : String
  private_key : Option String
  deriving Repr, DecidableEq

/-- `async function processWalletData(walletData, version)` (bot.js lines
68-85), taking the entry's `mnemonic` string: trim, split on single spaces
(JS `split(' ')` keeps empty fragments), require exactly 24 words, then
derive the key pair and address; every thrown error is wrapped as
`Error processing wallet data: ...`. -/
def processWalletData {W : Type} (env : TonEnv W)
    (mnemonic : String) (version : String) : Except String ProcessedWallet :=
  let mnemonicArray := jsSplit ' ' (jsTrim mnemonic)
  if mnemonicArray.length ≠ 24 then
    .error "Error processing wallet data: Invalid seed phrase length - must be 24 words"
  else
    let keyPair := env.mnemonicToWalletKey mnemonicArray
    match getWalletAddressFromSeed env mnemonicArray version with
    | .error e => .error ("Error processing wallet data: " ++ e)
    | .ok address =>
        .ok ⟨address, some (bufferToHex keyPair.secretKey)⟩

/-- `async function selectWalletVersion()` (bot.js lines 126-145), as a
function of the user's answer: `"1" ↦ v3r2`, `"2" ↦ v4`, `"3" ↦ v5`, any
other input defaults to `v4`. -/
def selectWalletVersion (input : String) : String :=
  if input = "1" then "v3r2"
  else if input = "2" then "v4"
  else if input = "3" then "v5"
  else "v4"

/-- A version string is supported when its lowercase form is one of the three
cases of the `switch` in `getWalletAddressFromSeed`. -/
def supportedVersion (version : String) : Bool :=
  jsToLower version = "v3r2" || jsToLower version = "v4" || jsToLower version = "v5"

/-! ## File loading (`loadData`) -/

/-- One entry of the `walletData` list: `{mnemonic}` objects for seed-based
platforms, `{address}` objects for PAWS; a missing field is `none`
(JS `undefined`). -/
structure WalletEntry where
  mnemonic : Option String := none
  address : Option String := none
  deriving Repr, DecidableEq

/-- Environment for `fs.readFileSync`: file name to contents, or a thrown
error message. -/
structure FsEnv where
  readFile : String → Except String String

/-- The `{ walletData, queryIds }` object returned by `loadData`. -/
structure LoadResult where
  walletData : List WalletEntry
  queryIds : List String
  deriving Repr, DecidableEq

/-- Non-empty lines of a file: `content.split('\n').filter(line => line.trim())`. -/
def nonEmptyLines (content : String) : List String :=
  (jsSplit '\n' content).filter (fun line => jsTrim line ≠ "")

/-- `function loadData(platform)` (bot.js lines 161-210): read `wallet.txt`
(PAWS) or `seed.txt` (otherwise) plus `query.txt`, keep non-empty lines,
require equal counts, and build the `walletData` entries; any thrown error
(unreadable file or count mismatch) is caught and `null` is returned. -/
def loadData (fs : FsEnv) (platform : String) : Option LoadResult :=
  if platform = "paws" then
    match fs.readFile "wallet.txt" with
    | .error _ => none
    | .ok walletContent =>
      match fs.readFile "query.txt" with
      | .error _ => none
      | .ok queryContent =>
        let wallets := nonEmptyLines walletContent
        let queryIds := nonEmptyLines queryContent
        if wallets.length ≠ queryIds.length then none
        else some ⟨wallets.map (fun address => { address := some (jsTrim address) }), queryIds⟩
  else
    match fs.readFile "seed.txt" with
    | .error _ => none
    | .ok seedContent =>
      match fs.readFile "query.txt" with
      | .error _ => none
      | .ok queryContent =>
        let seeds := nonEmptyLines seedContent
        let queryIds := nonEmptyLines queryContent
        if seeds.length ≠ queryIds.length then none
        else some ⟨seeds.map (fun seed => { mnemonic := some seed }), queryIds⟩

/-! ## The batch loop (`processWallets`)

`processWallets` is embedded with a trace semantics: every external service
call performed for account `i` is recorded as an `Event` carrying `i`, so
that ordering, at-most-once and delay properties can be stated on traces.
The platform service clients are out of scope per the spec and are modelled
by `SvcEnv`: each call site gets the result the external world would return
for that account, `Except` errors standing for thrown/rejected calls caught
by the loop's `try/catch`. -/

/-- Trace events of one run of `processWallets`; each carries the account
index it was performed for. -/
inductive Event
  | login (i : Nat)
  | getNewToken (i : Nat)
  | init (i : Nat)
  | connect (i : Nat)
  | disconnect (i : Nat)
  | display (i : Nat)
  | getBalance (i : Nat)
  | delay (i : Nat) (ms : Int)
  deriving Repr, DecidableEq

/-- The account index an event was performed for. -/
def Event.idx : Event → Nat
  | .login i => i
  | .getNewToken i => i
  | .init i => i
  | .connect i => i
  | .disconnect i => i
  | .display i => i
  | .getBalance i => i
  | .delay i _ => i

/-- Phase of an event within one account's processing: authentication (0),
service initialization (1), the selected wallet operation (2), the balance
query that follows a successful Blum connect (3), the inter-account delay (4). -/
def Event.phase : Event → Nat
  | .login _ => 0
  | .getNewToken _ => 0
  | .init _ => 1
  | .connect _ => 2
  | .disconnect _ => 2
  | .display _ => 2
  | .getBalance _ => 3
  | .delay _ _ => 4

/-- Login or token acquisition events. -/
def Event.isAuth : Event → Bool
  | .login _ => true
  | .getNewToken _ => true
  | _ => false

/-- Service initialization events. -/
def Event.isInit : Event → Bool
  | .init _ => true
  | _ => false

/-- The selected connect/disconnect/display operation events. -/
def Event.isOp : Event → Bool
  | .connect _ => true
  | .disconnect _ => true
  | .display _ => true
  | _ => false

/-- Delay events. -/
def Event.isDelay : Event → Bool
  | .delay _ _ => true
  | _ => false

/-- `connectWallet` call events. -/
def Event.isConnect : Event → Bool
  | .connect _ => true
  | _ => false

/-- `disconnectWallet` call events. -/
def Event.isDisconnect : Event → Bool
  | .disconnect _ => true
  | _ => false

/-- Environment of the external platform services for one run; calls are
indexed by the account they serve (the loop creates one service instance per
account and passes it `queryIds[i]`). An `.error` result models a thrown
error or rejected awaited promise, caught by the loop's `try/catch`.
`random i` is the value of `Math.random()` at the delay after account `i`. -/
structure SvcEnv where
  pawsLogin : Nat → Except String (Option String)
  pawsInit : Nat → Except String Bool
  tsubasaInit : Nat → Except String Bool
  yescoinLogin : Nat → Except String (Option String)
  blumGetNewToken : Nat → Except String (Option String)
  connectWallet : Nat → Except String Bool
  disconnectWallet : Nat → Except String Bool
  blumHasGetBalance : Bool
  getBalance : Nat → Except String (Option Rat)
  random : Nat → Rat

/-- `Math.floor(Math.random() * (3000 - 1000 + 1)) + 1000` (bot.js line 327),
on the exact rational `r` returned by `Math.random()`: since `r.den > 0`,
`⌊r * 2001⌋` is the floor division of `r.num * 2001` by `r.den`. -/
def delayMs (r : Rat) : Int :=
  (r.num * (3000 - 1000 + 1)).fdiv r.den + 1000

/-- Outcome of the per-account setup (wallet data processing, login or token
acquisition, service initialization): an error thrown inside the `try` block,
a failed check that hit `continue` (after `failCount++`), or a ready service
with the processed wallet. -/
inductive SetupOut
  | threw
  | skipped
  | ready (pw : ProcessedWallet)
  deriving Repr, DecidableEq

/-- The setup part of one iteration of the loop in `processWallets` (bot.js
lines 225-278): the PAWS branch checks the address, logs in and initializes;
the other platforms run `processWalletData` and then the platform-specific
login/token and init calls. -/
def setupPhase {W : Type} (tenv : TonEnv W) (senv : SvcEnv)
    (platform version : String) (walletData : List WalletEntry) (i : Nat) :
    List Event × SetupOut :=
  if platform = "paws" then
    match walletData[i]? with
    | none => ([], .threw)
    | some w =>
      match w.address with
      | none => ([], .skipped)
      | some a =>
        if a = "" then ([], .skipped)
        else
          match senv.pawsLogin i with
          | .error _ => ([.login i], .threw)
          | .ok none => ([.login i], .skipped)
          | .ok (some _) =>
            match senv.pawsInit i with
            | .error _ => ([.login i, .init i], .threw)
            | .ok false => ([.login i, .init i], .skipped)
            | .ok true => ([.login i, .init i], .ready ⟨a, none⟩)
  else
    match walletData[i]? with
    | none => ([], .threw)
    | some w =>
      match w.mnemonic with
      | none => ([], .threw)
      | some m =>
        match processWalletData tenv m version with
        | .error _ => ([], .threw)
        | .ok pw =>
          if platform = "tsubasa" then
            match senv.tsubasaInit i with
            | .error _ => ([.init i], .threw)
            | .ok _ => ([.init i], .ready pw)
          else if platform = "yescoin" then
            match senv.yescoinLogin i with
            | .error _ => ([.login i], .threw)
            | .ok none => ([.login i], .skipped)
            | .ok (some _) => ([.login i, .init i], .ready pw)
          else
            match senv.blumGetNewToken i with
            | .error _ => ([.getNewToken i], .threw)
            | .ok none => ([.getNewToken i], .skipped)
            | .ok (some _) => ([.getNewToken i, .init i], .ready pw)

/-- Outcome of the action part of an iteration: success (`successCount++`),
failure (`failCount++`, but the iteration still reaches the delay), or a
thrown error (caught, `failCount++`, delay skipped). -/
inductive ActionOut
  | succeeded
  | failed
  | threw
  deriving Repr, DecidableEq

/-- The action part of one iteration (bot.js lines 280-323): connect for
action `"1"` (with the balance query on Blum after a successful connect),
disconnect for `"2"`, display otherwise. Returns the events, the outcome and
the amount added to `totalBalance`. -/
def actionPhase (senv : SvcEnv) (action platform : String) (i : Nat) :
    List Event × ActionOut × Rat :=
  if action = "1" then
    match senv.connectWallet i with
    | .error _ => ([.connect i], .threw, 0)
    | .ok false => ([.connect i], .failed, 0)
    | .ok true =>
      if platform = "blum" ∧ senv.blumHasGetBalance = true then
        match senv.getBalance i with
        | .error _ => ([.connect i, .getBalance i], .threw, 0)
        | .ok none => ([.connect i, .getBalance i], .succeeded, 0)
        | .ok (some b) => ([.connect i, .getBalance i], .succeeded, b)
      else ([.connect i], .succeeded, 0)
  else if action = "2" then
    match senv.disconnectWallet i with
    | .error _ => ([.disconnect i], .threw, 0)
    | .ok false => ([.disconnect i], .failed, 0)
    | .ok true => ([.disconnect i], .succeeded, 0)
  else
    ([.display i], .succeeded, 0)

/-- Result of one loop iteration: its trace, whether `successCount` (rather
than `failCount`) was incremented, and the amount added to `totalBalance`. -/
structure IterOut where
  events : List Event
  succeeded : Bool
  balanceAdd : Rat
  deriving Repr, DecidableEq

/-- One iteration `i` of the loop in `processWallets` (bot.js lines 221-334):
setup then action; the random delay (line 326-328) runs only when the `try`
body completed without `continue` or a thrown error and `i` is not the last
index. -/
def runIteration {W : Type} (tenv : TonEnv W) (senv : SvcEnv)
    (action platform version : String) (queryIds : List String)
    (walletData : List WalletEntry) (i : Nat) : IterOut :=
  let delayEvs : List Event :=
    if i < queryIds.length - 1 then [.delay i (delayMs (senv.random i))] else []
  match setupPhase tenv senv platform version walletData i with
  | (evs, .threw) => ⟨evs, false, 0⟩
  | (evs, .skipped) => ⟨evs, false, 0⟩
  | (evs, .ready _) =>
    match actionPhase senv action platform i with
    | (evs2, .threw, _) => ⟨evs ++ evs2, false, 0⟩
    | (evs2, .failed, b) => ⟨evs ++ evs2 ++ delayEvs, false, b⟩
    | (evs2, .succeeded, b) => ⟨evs ++ evs2 ++ delayEvs, true, b⟩

/-- The `{ successCount, failCount, totalBalance }` summary returned by
`processWallets`, together with the trace of the run. -/
structure RunResult where
  events : List Event
  successCount : Nat
  failCount : Nat
  totalBalance : Rat
  deriving Repr, DecidableEq

/-- The loop of `processWallets`, processing `count` accounts starting at
index `i` (the JS `for` loop is `processWalletsFrom` at `queryIds.length`
accounts starting from index `0`). -/
def processWalletsFrom {W : Type} (tenv : TonEnv W) (senv : SvcEnv)
    (action : String) (queryIds : List String) (walletData : List WalletEntry)
    (version platform : String) : Nat → Nat → RunResult
  | 0, _ => ⟨[], 0, 0, 0⟩
  | count + 1, i =>
    let it := runIteration tenv senv action platform version queryIds walletData i
    let rest :=
      processWalletsFrom tenv senv action queryIds walletData version platform count (i + 1)
    ⟨it.events ++ rest.events,
     (if it.succeeded then 1 else 0) + rest.successCount,
     (if it.succeeded then 0 else 1) + rest.failCount,
     it.balanceAdd + rest.totalBalance⟩

/-- `async function processWallets(action, queryIds, walletData, version,
platform)` (bot.js lines 212-345): run the loop over every account and return
the summary counters and total balance, here together with the run's trace. -/
def processWallets {W : Type} (tenv : TonEnv W) (senv : SvcEnv)
    (action : String) (queryIds : List String) (walletData : List WalletEntry)
    (version platform : String) : RunResult :=
  processWalletsFrom tenv senv action queryIds walletData version platform queryIds.length 0

/-! ## Concrete instances used to evaluate the model on closed inputs -/

/-- A concrete `@ton` environment over `Nat` wallet objects. -/
def wTon : TonEnv Nat where
  mnemonicToWalletKey := fun _ => ⟨[1, 2], [3, 4]⟩
  create := fun _ _ => 0
  addressToString := fun _ _ => "ADDR"

/-- A concrete 24-word mnemonic. -/
def mn24 : String :=
  "w w w w w w w w w w w w w w w w w w w w w w w w"

/-- A wallet entry holding the concrete 24-word mnemonic. -/
def entry24 : WalletEntry := { mnemonic := some mn24 }

/-- A service environment in which every external call succeeds. -/
def svcOk : SvcEnv where
  pawsLogin := fun _ => .ok (some "tok")
  pawsInit := fun _ => .ok true
  tsubasaInit := fun _ => .ok true
  yescoinLogin := fun _ => .ok (some "tok")
  blumGetNewToken := fun _ => .ok (some "tok")
  connectWallet := fun _ => .ok true
  disconnectWallet := fun _ => .ok true
  blumHasGetBalance := true
  getBalance := fun _ => .ok (some 5)
  random := fun _ => 0

/-- A service environment in which Blum token acquisition yields no token. -/
def svcNoToken : SvcEnv :=
  { svcOk with blumGetNewToken := fun _ => .ok none }

/-- A concrete file-system environment with two seed and two query lines. -/
def fsW : FsEnv where
  readFile := fun name =>
    if name = "seed.txt" then .ok "s1\ns2"
    else if name = "query.txt" then .ok "q1\nq2"
    else .error "ENOENT"

/-! ## Structural lemmas about the loop -/

/-- The setup phase emits one of six possible event lists. -/
lemma setupPhase_shape {W : Type} (tenv : TonEnv W) (senv : SvcEnv)
    (platform version : String) (walletData : List WalletEntry) (i : Nat) :
    (setupPhase tenv senv platform version walletData i).1 = [] ∨
    (setupPhase tenv senv platform version walletData i).1 = [.login i] ∨
    (setupPhase tenv senv platform version walletData i).1 = [.getNewToken i] ∨
    (setupPhase tenv senv platform version walletData i).1 = [.init i] ∨
    (setupPhase tenv senv platform version walletData i).1 = [.login i, .init i] ∨
    (setupPhase tenv senv platform version walletData i).1 = [.getNewToken i, .init i] := by
  unfold setupPhase
  repeat' split
  all_goals simp

/-- The action phase emits one of four possible event lists. -/
lemma actionPhase_shape (senv : SvcEnv) (action platform : String) (i : Nat) :
    (actionPhase senv action platform i).1 = [.connect i] ∨
    (actionPhase senv action platform i).1 = [.connect i, .getBalance i] ∨
    (actionPhase senv action platform i).1 = [.disconnect i] ∨
    (actionPhase senv action platform i).1 = [.display i] := by
  unfold actionPhase
  repeat' split
  all_goals simp

/-- The trace of one iteration is the setup events, possibly followed by the
action events and possibly the delay event. -/
lemma runIteration_events_cases {W : Type} (tenv : TonEnv W) (senv : SvcEnv)
    (action platform version : String) (queryIds : List String)
    (walletData : List WalletEntry) (i : Nat) :
    (runIteration tenv senv action platform version queryIds walletData i).events =
      (setupPhase tenv senv platform version walletData i).1 ∨
    (runIteration tenv senv action platform version queryIds walletData i).events =
      (setupPhase tenv senv platform version walletData i).1 ++
      (actionPhase senv action platform i).1 ∨
    (runIteration tenv senv action platform version queryIds walletData i).events =
      (setupPhase tenv senv platform version walletData i).1 ++
      (actionPhase senv action platform i).1 ++
      (if i < queryIds.length - 1 then [.delay i (delayMs (senv.random i))] else []) := by
  unfold runIteration
  repeat' split
  all_goals simp_all

/-- Every setup event carries the account index it was performed for. -/
lemma setupPhase_idx {W : Type} (tenv : TonEnv W) (senv : SvcEnv)
    (platform version : String) (walletData : List WalletEntry) (i : Nat) :
    ∀ e ∈ (setupPhase tenv senv platform version walletData i).1, e.idx = i := by
  rcases setupPhase_shape tenv senv platform version walletData i with h | h | h | h | h | h <;>
    rw [h] <;> simp [Event.idx]

/-- Every action event carries the account index it was performed for. -/
lemma actionPhase_idx (senv : SvcEnv) (action platform : String) (i : Nat) :
    ∀ e ∈ (actionPhase senv action platform i).1, e.idx = i := by
  rcases actionPhase_shape senv action platform i with h | h | h | h <;>
    rw [h] <;> simp [Event.idx]

/-- Setup events are authentication or initialization events. -/
lemma setupPhase_phase_le {W : Type} (tenv : TonEnv W) (senv : SvcEnv)
    (platform version : String) (walletData : List WalletEntry) (i : Nat) :
    ∀ e ∈ (setupPhase tenv senv platform version walletData i).1, e.phase ≤ 1 := by
  rcases setupPhase_shape tenv senv platform version walletData i with h | h | h | h | h | h <;>
    rw [h] <;> simp [Event.phase]

/-- Action events are operation or balance events. -/
lemma actionPhase_phase (senv : SvcEnv) (action platform : String) (i : Nat) :
    ∀ e ∈ (actionPhase senv action platform i).1, 2 ≤ e.phase ∧ e.phase ≤ 3 := by
  rcases actionPhase_shape senv action platform i with h | h | h | h <;>
    rw [h] <;> simp [Event.phase]

/-- Setup events are ordered by phase. -/
lemma setupPhase_sorted {W : Type} (tenv : TonEnv W) (senv : SvcEnv)
    (platform version : String) (walletData : List WalletEntry) (i : Nat) :
    ((setupPhase tenv senv platform version walletData i).1).Pairwise
      (fun a b => a.phase ≤ b.phase) := by
  rcases setupPhase_shape tenv senv platform version walletData i with h | h | h | h | h | h <;>
    rw [h] <;> simp [List.pairwise_cons, Event.phase]

/-- Action events are ordered by phase. -/
lemma actionPhase_sorted (senv : SvcEnv) (action platform : String) (i : Nat) :
    ((actionPhase senv action platform i).1).Pairwise
      (fun a b => a.phase ≤ b.phase) := by
  rcases actionPhase_shape senv action platform i with h | h | h | h <;>
    rw [h] <;> simp [List.pairwise_cons, Event.phase]

/-- Event counts of the setup phase. -/
lemma setupPhase_counts {W : Type} (tenv : TonEnv W) (senv : SvcEnv)
    (platform version : String) (walletData : List WalletEntry) (i : Nat) :
    (((setupPhase tenv senv platform version walletData i).1).filter Event.isAuth).length ≤ 1 ∧
    (((setupPhase tenv senv platform version walletData i).1).filter Event.isInit).length ≤ 1 ∧
    (((setupPhase tenv senv platform version walletData i).1).filter Event.isConnect).length = 0 ∧
    (((setupPhase tenv senv platform version walletData i).1).filter Event.isDisconnect).length = 0 ∧
    (((setupPhase tenv senv platform version walletData i).1).filter Event.isOp).length = 0 ∧
    (((setupPhase tenv senv platform version walletData i).1).filter Event.isDelay).length = 0 := by
  rcases setupPhase_shape tenv senv platform version walletData i with h | h | h | h | h | h <;>
    rw [h] <;>
    simp [Event.isAuth, Event.isInit, Event.isConnect, Event.isDisconnect, Event.isOp,
      Event.isDelay]

/-- Event counts of the action phase. -/
lemma actionPhase_counts (senv : SvcEnv) (action platform : String) (i : Nat) :
    (((actionPhase senv action platform i).1).filter Event.isAuth).length = 0 ∧
    (((actionPhase senv action platform i).1).filter Event.isInit).length = 0 ∧
    (((actionPhase senv action platform i).1).filter Event.isConnect).length ≤ 1 ∧
    (((actionPhase senv action platform i).1).filter Event.isDisconnect).length ≤ 1 ∧
    (((actionPhase senv action platform i).1).filter Event.isOp).length ≤ 1 ∧
    (((actionPhase senv action platform i).1).filter Event.isDelay).length = 0 := by
  rcases actionPhase_shape senv action platform i with h | h | h | h <;>
    rw [h] <;>
    simp [Event.isAuth, Event.isInit, Event.isConnect, Event.isDisconnect, Event.isOp,
      Event.isDelay]

/-- Every event of iteration `i` carries index `i`. -/
lemma runIteration_idx {W : Type} (tenv : TonEnv W) (senv : SvcEnv)
    (action platform version : String) (queryIds : List String)
    (walletData : List WalletEntry) (i : Nat) :
    ∀ e ∈ (runIteration tenv senv action platform version queryIds walletData i).events,
      e.idx = i := by
  intro e he
  rcases runIteration_events_cases tenv senv action platform version queryIds walletData i with
    h | h | h <;> rw [h] at he
  · exact setupPhase_idx tenv senv platform version walletData i e he
  · rcases List.mem_append.1 he with h1 | h2
    · exact setupPhase_idx tenv senv platform version walletData i e h1
    · exact actionPhase_idx senv action platform i e h2
  · rcases List.mem_append.1 he with h12 | h3
    · rcases List.mem_append.1 h12 with h1 | h2
      · exact setupPhase_idx tenv senv platform version walletData i e h1
      · exact actionPhase_idx senv action platform i e h2
    · split at h3 <;> simp at h3
      rw [h3]
      rfl

/-- The events of one iteration occur in phase order: authentication, then
initialization, then the wallet operation, then the balance query, then the
delay. -/
lemma runIteration_sorted {W : Type} (tenv : TonEnv W) (senv : SvcEnv)
    (action platform version : String) (queryIds : List String)
    (walletData : List WalletEntry) (i : Nat) :
    ((runIteration tenv senv action platform version queryIds walletData i).events).Pairwise
      (fun a b => a.phase ≤ b.phase) := by
  have hs := setupPhase_sorted tenv senv platform version walletData i
  have ha := actionPhase_sorted senv action platform i
  have hsp := setupPhase_phase_le tenv senv platform version walletData i
  have hap := actionPhase_phase senv action platform i
  rcases runIteration_events_cases tenv senv action platform version queryIds walletData i with
    h | h | h <;> rw [h]
  · exact hs
  · refine List.pairwise_append.2 ⟨hs, ha, ?_⟩
    intro a haa b hb
    have h1 := hsp a haa
    have h2 := (hap b hb).1
    omega
  · refine List.pairwise_append.2 ⟨List.pairwise_append.2 ⟨hs, ha, ?_⟩, ?_, ?_⟩
    · intro a haa b hb
      have h1 := hsp a haa
      have h2 := (hap b hb).1
      omega
    · split <;> simp [List.pairwise_cons]
    · intro a haa b hb
      have hb4 : b.phase = 4 := by
        revert hb
        split <;> simp
        intro hb
        rw [hb]
        rfl
      rcases List.mem_append.1 haa with h1 | h2
      · have := hsp a h1
        omega
      · have := (hap a h2).2
        omega

/-- Per-iteration event counts: each kind of service call happens at most
once per account. -/
lemma runIteration_counts {W : Type} (tenv : TonEnv W) (senv : SvcEnv)
    (action platform version : String) (queryIds : List String)
    (walletData : List WalletEntry) (i : Nat) :
    (((runIteration tenv senv action platform version queryIds walletData i).events).filter
        Event.isAuth).length ≤ 1 ∧
    (((runIteration tenv senv action platform version queryIds walletData i).events).filter
        Event.isInit).length ≤ 1 ∧
    (((runIteration tenv senv action platform version queryIds walletData i).events).filter
        Event.isConnect).length ≤ 1 ∧
    (((runIteration tenv senv action platform version queryIds walletData i).events).filter
        Event.isDisconnect).length ≤ 1 ∧
    (((runIteration tenv senv action platform version queryIds walletData i).events).filter
        Event.isOp).length ≤ 1 ∧
    (((runIteration tenv senv action platform version queryIds walletData i).events).filter
        Event.isDelay).length ≤ 1 := by
  have hs := setupPhase_counts tenv senv platform version walletData i
  have ha := actionPhase_counts senv action platform i
  have hd0 : ∀ p : Event → Bool, p (Event.delay i (delayMs (senv.random i))) = false →
      ((if i < queryIds.length - 1 then
          [Event.delay i (delayMs (senv.random i))] else []).filter p).length = 0 := by
    intro p hp
    split <;> simp [List.filter_cons, hp]
  obtain ⟨hs1, hs2, hs3, hs4, hs5, hs6⟩ := hs
  obtain ⟨ha1, ha2, ha3, ha4, ha5, ha6⟩ := ha
  have hd1 := hd0 Event.isAuth rfl
  have hd2 := hd0 Event.isInit rfl
  have hd3 := hd0 Event.isConnect rfl
  have hd4 := hd0 Event.isDisconnect rfl
  have hd5 := hd0 Event.isOp rfl
  have hd6 : ((if i < queryIds.length - 1 then
      [Event.delay i (delayMs (senv.random i))] else []).filter Event.isDelay).length ≤ 1 := by
    split <;> simp [List.filter_cons, Event.isDelay]
  rcases runIteration_events_cases tenv senv action platform version queryIds walletData i with
    h | h | h <;> rw [h] <;> refine ⟨?_, ?_, ?_, ?_, ?_, ?_⟩ <;>
    (try simp only [List.filter_append, List.length_append]) <;> omega

/-- Setup events are not delay events. -/
lemma setupPhase_no_delay {W : Type} (tenv : TonEnv W) (senv : SvcEnv)
    (platform version : String) (walletData : List WalletEntry) (i : Nat) :
    ∀ e ∈ (setupPhase tenv senv platform version walletData i).1, e.isDelay = false := by
  rcases setupPhase_shape tenv senv platform version walletData i with h | h | h | h | h | h <;>
    rw [h] <;> simp [Event.isDelay]

/-- Action events are not delay events. -/
lemma actionPhase_no_delay (senv : SvcEnv) (action platform : String) (i : Nat) :
    ∀ e ∈ (actionPhase senv action platform i).1, e.isDelay = false := by
  rcases actionPhase_shape senv action platform i with h | h | h | h <;>
    rw [h] <;> simp [Event.isDelay]

/-- Any delay event of iteration `i` is the single delay of line 327: it is
only present when `i` is not the last index, it records the sleep computed
from `Math.random()`, and it implies the iteration ran to completion — the
setup ended `ready` (no thrown error, no `continue` on a failed check) and
the action phase did not throw. -/
lemma runIteration_delay {W : Type} (tenv : TonEnv W) (senv : SvcEnv)
    (action platform version : String) (queryIds : List String)
    (walletData : List WalletEntry) (i : Nat) :
    ∀ e ∈ (runIteration tenv senv action platform version queryIds walletData i).events,
      e.isDelay = true →
      i < queryIds.length - 1 ∧ e = .delay i (delayMs (senv.random i)) ∧
      (∃ pw, (setupPhase tenv senv platform version walletData i).2 = .ready pw) ∧
      (actionPhase senv action platform i).2.1 ≠ .threw := by
  intro e he hd
  have hsn := setupPhase_no_delay tenv senv platform version walletData i
  have han := actionPhase_no_delay senv action platform i
  unfold runIteration at he
  rcases hsp : setupPhase tenv senv platform version walletData i with ⟨evs, out⟩
  rw [hsp] at he hsn
  rcases hap : actionPhase senv action platform i with ⟨evs2, out2, b⟩
  rw [hap] at he han
  dsimp only at hsn han
  cases out with
  | threw =>
    dsimp only at he
    rw [hsn e he] at hd
    exact absurd hd (by simp)
  | skipped =>
    dsimp only at he
    rw [hsn e he] at hd
    exact absurd hd (by simp)
  | ready pw =>
    cases out2 with
    | threw =>
      dsimp only at he
      rcases List.mem_append.1 he with h1 | h2
      · rw [hsn e h1] at hd
        exact absurd hd (by simp)
      · rw [han e h2] at hd
        exact absurd hd (by simp)
    | failed =>
      dsimp only at he
      rcases List.mem_append.1 he with h12 | h3
      · rcases List.mem_append.1 h12 with h1 | h2
        · rw [hsn e h1] at hd
          exact absurd hd (by simp)
        · rw [han e h2] at hd
          exact absurd hd (by simp)
      · revert h3
        split
        · intro h3
          simp at h3
          exact ⟨by assumption, h3, ⟨pw, rfl⟩, by simp⟩
        · intro h3
          simp at h3
    | succeeded =>
      dsimp only at he
      rcases List.mem_append.1 he with h12 | h3
      · rcases List.mem_append.1 h12 with h1 | h2
        · rw [hsn e h1] at hd
          exact absurd hd (by simp)
        · rw [han e h2] at hd
          exact absurd hd (by simp)
      · revert h3
        split
        · intro h3
          simp at h3
          exact ⟨by assumption, h3, ⟨pw, rfl⟩, by simp⟩
        · intro h3
          simp at h3

/-- An iteration whose setup threw or hit `continue`, or whose action phase
threw, inserts no delay before the next account. -/
lemma runIteration_no_delay_skip {W : Type} (tenv : TonEnv W) (senv : SvcEnv)
    (action platform version : String) (queryIds : List String)
    (walletData : List WalletEntry) (i : Nat)
    (h : (setupPhase tenv senv platform version walletData i).2 = .threw ∨
         (setupPhase tenv senv platform version walletData i).2 = .skipped ∨
         (actionPhase senv action platform i).2.1 = .threw) :
    ((runIteration tenv senv action platform version queryIds walletData i).events.filter
        Event.isDelay) = [] := by
  rw [List.filter_eq_nil_iff]
  intro a ha hd
  obtain ⟨-, -, ⟨pw, hready⟩, hnthrew⟩ :=
    runIteration_delay tenv senv action platform version queryIds walletData i a ha hd
  rcases h with h | h | h
  · rw [hready] at h
    exact absurd h (by simp)
  · rw [hready] at h
    exact absurd h (by simp)
  · exact hnthrew h

/-- Unfolding of the loop: trace, counters and balance of
`processWalletsFrom count i` in terms of the iterations `i, …, i+count-1`. -/
lemma processWalletsFrom_spec {W : Type} (tenv : TonEnv W) (senv : SvcEnv)
    (action : String) (queryIds : List String) (walletData : List WalletEntry)
    (version platform : String) :
    ∀ count i,
    (processWalletsFrom tenv senv action queryIds walletData version platform count i).events =
      (List.range' i count).flatMap
        (fun k => (runIteration tenv senv action platform version queryIds walletData k).events) ∧
    (processWalletsFrom tenv senv action queryIds walletData version platform count i).successCount =
      ((List.range' i count).filter
        (fun k => (runIteration tenv senv action platform version queryIds walletData k).succeeded)).length ∧
    (processWalletsFrom tenv senv action queryIds walletData version platform count i).failCount =
      ((List.range' i count).filter
        (fun k => !(runIteration tenv senv action platform version queryIds walletData k).succeeded)).length ∧
    (processWalletsFrom tenv senv action queryIds walletData version platform count i).successCount +
      (processWalletsFrom tenv senv action queryIds walletData version platform count i).failCount =
      count ∧
    (processWalletsFrom tenv senv action queryIds walletData version platform count i).totalBalance =
      ((List.range' i count).map
        (fun k => (runIteration tenv senv action platform version queryIds walletData k).balanceAdd)).sum := by
  intro count
  induction count with
  | zero =>
    intro i
    simp [processWalletsFrom]
  | succ n ihn =>
    intro i
    obtain ⟨ih1, ih2, ih3, ih4, ih5⟩ := ihn (i + 1)
    unfold processWalletsFrom
    dsimp only
    rw [ih1, ih2, ih3, ih5, List.range'_succ]
    by_cases hs :
        (runIteration tenv senv action platform version queryIds walletData i).succeeded <;>
      simp [hs, List.filter_cons] <;> omega

/-- Filtering a concatenation of per-index traces down to one index. -/
lemma filter_idx_flatMap (f : Nat → List Event) (i : Nat)
    (hf : ∀ k, ∀ e ∈ f k, e.idx = k) :
    ∀ len j, (((List.range' j len).flatMap f).filter (fun e => e.idx == i)) =
      if j ≤ i ∧ i < j + len then f i else [] := by
  intro len
  induction len with
  | zero =>
    intro j
    rw [if_neg (by omega)]
    simp
  | succ n ihn =>
    intro j
    rw [List.range'_succ, List.flatMap_cons, List.filter_append, ihn (j + 1)]
    by_cases hji : i = j
    · subst hji
      have hself : List.filter (fun e => e.idx == i) (f i) = f i :=
        List.filter_eq_self.2 (by intro a ha; simp [hf i a ha])
      rw [hself, if_neg (by omega), if_pos (by omega), List.append_nil]
    · have hnil : List.filter (fun e => e.idx == i) (f j) = [] := by
        rw [List.filter_eq_nil_iff]
        intro a ha
        simp [hf j a ha]
        omega
      rw [hnil, List.nil_append]
      by_cases hc : j + 1 ≤ i ∧ i < j + 1 + n
      · rw [if_pos hc, if_pos (by omega)]
      · rw [if_neg hc, if_neg (by omega)]

/-- The events of a run that belong to account `i` are exactly the events of
iteration `i`. -/
lemma processWallets_filter_idx {W : Type} (tenv : TonEnv W) (senv : SvcEnv)
    (action : String) (queryIds : List String) (walletData : List WalletEntry)
    (version platform : String) (i : Nat) :
    ((processWallets tenv senv action queryIds walletData version platform).events.filter
        (fun e => e.idx == i)) =
      if i < queryIds.length then
        (runIteration tenv senv action platform version queryIds walletData i).events
      else [] := by
  have h1 := (processWalletsFrom_spec tenv senv action queryIds walletData version platform
    queryIds.length 0).1
  rw [processWallets, h1,
    filter_idx_flatMap _ i
      (fun k => runIteration_idx tenv senv action platform version queryIds walletData k)
      queryIds.length 0]
  by_cases hc : i < queryIds.length
  · rw [if_pos (by omega), if_pos hc]
  · rw [if_neg (by omega), if_neg hc]

/-- The action phase adds no balance unless the action is connect on Blum. -/
lemma actionPhase_balance_zero (senv : SvcEnv) (action platform : String) (i : Nat)
    (hna : ¬(action = "1" ∧ platform = "blum")) :
    (actionPhase senv action platform i).2.2 = 0 := by
  unfold actionPhase
  repeat' split
  all_goals simp_all

/-- A nonzero balance contribution comes from a successful connect on Blum
whose balance query returned a value. -/
lemma actionPhase_balance_nonzero (senv : SvcEnv) (action platform : String) (i : Nat)
    (hnz : (actionPhase senv action platform i).2.2 ≠ 0) :
    action = "1" ∧ platform = "blum" ∧ senv.connectWallet i = .ok true ∧
    ∃ b, senv.getBalance i = .ok (some b) ∧ (actionPhase senv action platform i).2.2 = b := by
  revert hnz
  unfold actionPhase
  repeat' split
  all_goals simp_all

/-- The balance contribution of an iteration is zero or the action phase's. -/
lemma runIteration_balance {W : Type} (tenv : TonEnv W) (senv : SvcEnv)
    (action platform version : String) (queryIds : List String)
    (walletData : List WalletEntry) (i : Nat) :
    (runIteration tenv senv action platform version queryIds walletData i).balanceAdd = 0 ∨
    (runIteration tenv senv action platform version queryIds walletData i).balanceAdd =
      (actionPhase senv action platform i).2.2 := by
  unfold runIteration
  repeat' split
  all_goals simp_all

/-- On PAWS, an account whose login yields no token is counted as failed and
gets no initialization and no wallet operation. -/
lemma runIteration_paws_no_token {W : Type} (tenv : TonEnv W) (senv : SvcEnv)
    (action version : String) (queryIds : List String)
    (walletData : List WalletEntry) (i : Nat)
    (hl : senv.pawsLogin i = .ok none) :
    (runIteration tenv senv action "paws" version queryIds walletData i).succeeded = false ∧
    ((runIteration tenv senv action "paws" version queryIds walletData i).events.filter
      (fun e => e.isInit || e.isOp)) = [] := by
  unfold runIteration setupPhase
  rcases hw : walletData[i]? with _ | w
  · simp
  · rcases ha : w.address with _ | a
    · simp [ha]
    · by_cases he : a = ""
      · simp [ha, he]
      · simp [ha, he, hl, Event.isInit, Event.isOp, List.filter_cons]

/-- On YesCoin, an account whose login yields no token is counted as failed
and gets no initialization and no wallet operation. -/
lemma runIteration_yescoin_no_token {W : Type} (tenv : TonEnv W) (senv : SvcEnv)
    (action version : String) (queryIds : List String)
    (walletData : List WalletEntry) (i : Nat)
    (hl : senv.yescoinLogin i = .ok none) :
    (runIteration tenv senv action "yescoin" version queryIds walletData i).succeeded = false ∧
    ((runIteration tenv senv action "yescoin" version queryIds walletData i).events.filter
      (fun e => e.isInit || e.isOp)) = [] := by
  unfold runIteration setupPhase
  rcases hw : walletData[i]? with _ | w
  · simp
  · rcases hm : w.mnemonic with _ | m
    · simp [hm]
    · rcases hpd : processWalletData tenv m version with e | pw
      · simp [hm, hpd]
      · simp [hm, hpd, hl, Event.isInit, Event.isOp, List.filter_cons]

/-- On the default (Blum) branch, an account whose token acquisition yields
no token is counted as failed and gets no initialization and no wallet
operation. -/
lemma runIteration_blum_no_token {W : Type} (tenv : TonEnv W) (senv : SvcEnv)
    (action platform version : String) (queryIds : List String)
    (walletData : List WalletEntry) (i : Nat)
    (hp1 : platform ≠ "paws") (hp2 : platform ≠ "tsubasa") (hp3 : platform ≠ "yescoin")
    (hl : senv.blumGetNewToken i = .ok none) :
    (runIteration tenv senv action platform version queryIds walletData i).succeeded = false ∧
    ((runIteration tenv senv action platform version queryIds walletData i).events.filter
      (fun e => e.isInit || e.isOp)) = [] := by
  unfold runIteration setupPhase
  rcases hw : walletData[i]? with _ | w
  · simp [hp1]
  · rcases hm : w.mnemonic with _ | m
    · simp [hp1, hm]
    · rcases hpd : processWalletData tenv m version with e | pw
      · simp [hp1, hm, hpd]
      · simp [hp1, hp2, hp3, hm, hpd, hl, Event.isInit, Event.isOp, List.filter_cons]

/-! ## Claim theorems -/


/-- For a supported version string, `getWalletAddressFromSeed` creates the
wallet contract with workchain `0` and `DEFAULT_WALLET_ID` and returns its
address. -/
lemma getWalletAddressFromSeed_of_supported {W : Type} (env : TonEnv W)
    (m : List String) (version : String) (hs : supportedVersion version = true) :
    ∃ k : WalletKind, getWalletAddressFromSeed env m version =
      .ok (env.addressToString
        (env.create k ⟨0, (env.mnemonicToWalletKey m).publicKey, DEFAULT_WALLET_ID⟩)
        ⟨true, false⟩) := by
  unfold supportedVersion at hs
  simp only [Bool.or_eq_true, decide_eq_true_eq] at hs
  unfold getWalletAddressFromSeed
  rcases hs with (h | h) | h
  · exact ⟨.v3r2, by rw [if_pos h]⟩
  · refine ⟨.v4, ?_⟩
    rw [if_neg (by rw [h]; decide), if_pos h]
  · refine ⟨.v5, ?_⟩
    rw [if_neg (by rw [h]; decide), if_neg (by rw [h]; decide), if_pos h]

/-- For an unsupported version string, `getWalletAddressFromSeed` returns
the wrapped `Unsupported wallet version` error. -/
lemma getWalletAddressFromSeed_unsupported {W : Type} (env : TonEnv W)
    (m : List String) (version : String) (hs : supportedVersion version = false) :
    getWalletAddressFromSeed env m version =
      .error "Error generating wallet address: Unsupported wallet version" := by
  unfold supportedVersion at hs
  simp only [Bool.or_eq_false_iff, decide_eq_false_iff_not] at hs
  obtain ⟨⟨h1, h2⟩, h3⟩ := hs
  unfold getWalletAddressFromSeed
  rw [if_neg h1, if_neg h2, if_neg h3]



/-- C1: a wallet entry whose mnemonic, after trimming and splitting on
spaces, does not consist of exactly 24 words makes `processWalletData` fail
with the wrapped `Invalid seed phrase length - must be 24 words` error and
yields no address or key; a 24-word mnemonic with a supported version yields
the derived address together with the hex-encoded secret key. -/
theorem c1_processWalletData_length_check {W : Type} (env : TonEnv W)
    (mnemonic version : String) :
    ((jsSplit ' ' (jsTrim mnemonic)).length ≠ 24 →
      processWalletData env mnemonic version =
        .error "Error processing wallet data: Invalid seed phrase length - must be 24 words") ∧
    ((jsSplit ' ' (jsTrim mnemonic)).length = 24 → supportedVersion version = true →
      ∃ a, getWalletAddressFromSeed env (jsSplit ' ' (jsTrim mnemonic)) version = .ok a ∧
        processWalletData env mnemonic version =
          .ok ⟨a, some (bufferToHex
            (env.mnemonicToWalletKey (jsSplit ' ' (jsTrim mnemonic))).secretKey)⟩) := by
  constructor
  · intro h
    unfold processWalletData
    rw [if_pos h]
  · intro h hs
    obtain ⟨k, hk⟩ := getWalletAddressFromSeed_of_supported env
      (jsSplit ' ' (jsTrim mnemonic)) version hs
    refine ⟨_, hk, ?_⟩
    unfold processWalletData
    rw [if_neg (by simp [h]), hk]

/-- Witness for C1 on concrete inputs: a 1-word mnemonic fails with the
wrapped length error, and a concrete 24-word mnemonic with version `V4`
yields an address and the hex-encoded secret key. -/
theorem c1_witness :
    (processWalletData wTon "a" "v4" =
      .error "Error processing wallet data: Invalid seed phrase length - must be 24 words") ∧
    (∃ a, getWalletAddressFromSeed wTon (jsSplit ' ' (jsTrim mn24)) "V4" = .ok a ∧
      processWalletData wTon mn24 "V4" =
        .ok ⟨a, some (bufferToHex
          (wTon.mnemonicToWalletKey (jsSplit ' ' (jsTrim mn24))).secretKey)⟩) :=
  ⟨(c1_processWalletData_length_check wTon "a" "v4").1 (by decide),
   (c1_processWalletData_length_check wTon mn24 "V4").2 (by decide) (by decide)⟩

/-- C2: `getWalletAddressFromSeed` is deterministic (it is a pure function
of the mnemonic and version, two calls agree), and for each of the three
supported versions the wallet contract is created with workchain `0` and
wallet id `698983191`. -/
theorem c2_getWalletAddressFromSeed_deterministic {W : Type} (env : TonEnv W)
    (mnemonic : List String) (version : String) :
    getWalletAddressFromSeed env mnemonic version =
      getWalletAddressFromSeed env mnemonic version ∧
    (supportedVersion version = true →
      ∃ k : WalletKind, getWalletAddressFromSeed env mnemonic version =
        .ok (env.addressToString
          (env.create k ⟨0, (env.mnemonicToWalletKey mnemonic).publicKey, 698983191⟩)
          ⟨true, false⟩)) := by
  refine ⟨rfl, ?_⟩
  intro hs
  exact getWalletAddressFromSeed_of_supported env mnemonic version hs

/-- Witness for C2 at a concrete mnemonic and each of the versions `v3r2`,
`V4`, `v5`. -/
theorem c2_witness :
    (∃ k : WalletKind, getWalletAddressFromSeed wTon ["m"] "v3r2" =
      .ok (wTon.addressToString
        (wTon.create k ⟨0, (wTon.mnemonicToWalletKey ["m"]).publicKey, 698983191⟩)
        ⟨true, false⟩)) ∧
    (∃ k : WalletKind, getWalletAddressFromSeed wTon ["m"] "V4" =
      .ok (wTon.addressToString
        (wTon.create k ⟨0, (wTon.mnemonicToWalletKey ["m"]).publicKey, 698983191⟩)
        ⟨true, false⟩)) ∧
    (∃ k : WalletKind, getWalletAddressFromSeed wTon ["m"] "v5" =
      .ok (wTon.addressToString
        (wTon.create k ⟨0, (wTon.mnemonicToWalletKey ["m"]).publicKey, 698983191⟩)
        ⟨true, false⟩)) :=
  ⟨(c2_getWalletAddressFromSeed_deterministic wTon ["m"] "v3r2").2 (by decide),
   (c2_getWalletAddressFromSeed_deterministic wTon ["m"] "V4").2 (by decide),
   (c2_getWalletAddressFromSeed_deterministic wTon ["m"] "v5").2 (by decide)⟩

/-- C9: `getWalletAddressFromSeed` fails with the `Unsupported wallet
version` error exactly on version strings whose lowercase form is none of
`v3r2`, `v4`, `v5`; `selectWalletVersion` maps every user input to one of
those three strings, so the error branch is unreachable for menu-selected
versions. -/
theorem c9_unsupported_version_unreachable {W : Type} (env : TonEnv W)
    (m : List String) (version input : String) :
    (supportedVersion version = false →
      getWalletAddressFromSeed env m version =
        .error "Error generating wallet address: Unsupported wallet version") ∧
    (selectWalletVersion input = "v3r2" ∨ selectWalletVersion input = "v4" ∨
      selectWalletVersion input = "v5") ∧
    (∃ a, getWalletAddressFromSeed env m (selectWalletVersion input) = .ok a) := by
  have hsel : selectWalletVersion input = "v3r2" ∨ selectWalletVersion input = "v4" ∨
      selectWalletVersion input = "v5" := by
    unfold selectWalletVersion
    repeat' split
    all_goals simp
  refine ⟨?_, hsel, ?_⟩
  · intro hs
    exact getWalletAddressFromSeed_unsupported env m version hs
  · have hsup : supportedVersion (selectWalletVersion input) = true := by
      rcases hsel with h | h | h <;> rw [h] <;> decide
    obtain ⟨k, hk⟩ := getWalletAddressFromSeed_of_supported env m (selectWalletVersion input) hsup
    exact ⟨_, hk⟩

/-- Witness for C9: the version string `V9` produces the unsupported-version
error. -/
theorem c9_witness :
    getWalletAddressFromSeed wTon ["m"] "V9" =
      .error "Error generating wallet address: Unsupported wallet version" :=
  (c9_unsupported_version_unreachable wTon ["m"] "V9" "x").1 (by decide)



/-- C10: `loadData` never throws: any read error or line-count mismatch
yields `null` (here `none`), and a successful load returns wallet and query
lists of equal length whose entries come from non-blank lines only. -/
theorem c10_loadData_total (fs : FsEnv) (platform : String) :
    (∀ r, loadData fs platform = some r →
      r.walletData.length = r.queryIds.length ∧
      (∀ q ∈ r.queryIds, jsTrim q ≠ "") ∧
      (∀ w ∈ r.walletData,
        (∃ s, w.address = some s ∧ s ≠ "") ∨
        (∃ s, w.mnemonic = some s ∧ jsTrim s ≠ ""))) ∧
    (∀ e, fs.readFile "query.txt" = .error e → loadData fs platform = none) ∧
    (platform = "paws" → ∀ e, fs.readFile "wallet.txt" = .error e →
      loadData fs platform = none) ∧
    (platform ≠ "paws" → ∀ e, fs.readFile "seed.txt" = .error e →
      loadData fs platform = none) ∧
    (platform = "paws" → ∀ wc qc, fs.readFile "wallet.txt" = .ok wc →
      fs.readFile "query.txt" = .ok qc →
      (nonEmptyLines wc).length ≠ (nonEmptyLines qc).length →
      loadData fs platform = none) ∧
    (platform ≠ "paws" → ∀ sc qc, fs.readFile "seed.txt" = .ok sc →
      fs.readFile "query.txt" = .ok qc →
      (nonEmptyLines sc).length ≠ (nonEmptyLines qc).length →
      loadData fs platform = none) := by
  by_cases hp : platform = "paws"
  · subst hp
    refine ⟨?_, ?_, ?_, ?_, ?_, ?_⟩
    · intro r hr
      unfold loadData at hr
      rcases hw : fs.readFile "wallet.txt" with e | wc <;> simp [hw] at hr
      rcases hq : fs.readFile "query.txt" with e | qc <;> simp [hq] at hr
      obtain ⟨hlen, hr⟩ := hr
      subst hr
      refine ⟨by simp [hlen], ?_, ?_⟩
      · intro q hq2
        have hm := List.mem_filter.1 hq2
        simpa using hm.2
      · intro w hw2
        obtain ⟨line, hline, rfl⟩ := List.mem_map.1 hw2
        left
        refine ⟨jsTrim line, rfl, ?_⟩
        have hm := List.mem_filter.1 hline
        simpa using hm.2
    · intro e he
      unfold loadData
      rcases hw : fs.readFile "wallet.txt" with e2 | wc <;> simp [hw, he]
    · intro _ e he
      unfold loadData
      simp [he]
    · intro h
      exact absurd rfl h
    · intro _ wc qc hw hq hlen
      unfold loadData
      simp [hw, hq, hlen]
    · intro h
      exact absurd rfl h
  · refine ⟨?_, ?_, ?_, ?_, ?_, ?_⟩
    · intro r hr
      unfold loadData at hr
      rw [if_neg hp] at hr
      rcases hs : fs.readFile "seed.txt" with e | sc <;> simp [hs] at hr
      rcases hq : fs.readFile "query.txt" with e | qc <;> simp [hq] at hr
      obtain ⟨hlen, hr⟩ := hr
      subst hr
      refine ⟨by simp [hlen], ?_, ?_⟩
      · intro q hq2
        have hm := List.mem_filter.1 hq2
        simpa using hm.2
      · intro w hw2
        obtain ⟨line, hline, rfl⟩ := List.mem_map.1 hw2
        right
        refine ⟨line, rfl, ?_⟩
        have hm := List.mem_filter.1 hline
        simpa using hm.2
    · intro e he
      unfold loadData
      rw [if_neg hp]
      rcases hs : fs.readFile "seed.txt" with e2 | sc <;> simp [hs, he]
    · intro h
      exact absurd h hp
    · intro _ e he
      unfold loadData
      rw [if_neg hp]
      simp [he]
    · intro h
      exact absurd h hp
    · intro _ sc qc hs hq hlen
      unfold loadData
      rw [if_neg hp]
      simp [hs, hq, hlen]



/-- Witness for C10: a concrete file system with two seed and two query
lines loads successfully into equal-length lists of non-blank entries. -/
theorem c10_witness :
    ∃ r, loadData fsW "blum" = some r ∧ r.walletData.length = r.queryIds.length ∧
      (∀ q ∈ r.queryIds, jsTrim q ≠ "") := by
  have base := (c10_loadData_total fsW "blum").1
    ⟨[⟨some "s1", none⟩, ⟨some "s2", none⟩], ["q1", "q2"]⟩ (by decide)
  exact ⟨_, by decide, base.1, base.2.1⟩

/-- C4: every loop iteration of `processWallets` increments exactly one of
the two counters exactly once: `successCount` counts the iterations whose
outcome was a success, `failCount` the others, and they sum to the number of
query ids. -/
theorem c4_success_fail_partition {W : Type} (tenv : TonEnv W) (senv : SvcEnv)
    (action : String) (queryIds : List String) (walletData : List WalletEntry)
    (version platform : String) :
    (processWallets tenv senv action queryIds walletData version platform).successCount +
      (processWallets tenv senv action queryIds walletData version platform).failCount =
      queryIds.length ∧
    (processWallets tenv senv action queryIds walletData version platform).successCount =
      ((List.range queryIds.length).filter
        (fun i => (runIteration tenv senv action platform version queryIds walletData i).succeeded)).length ∧
    (processWallets tenv senv action queryIds walletData version platform).failCount =
      ((List.range queryIds.length).filter
        (fun i => !(runIteration tenv senv action platform version queryIds walletData i).succeeded)).length := by
  obtain ⟨-, h2, h3, h4, -⟩ := processWalletsFrom_spec tenv senv action queryIds walletData
    version platform queryIds.length 0
  rw [List.range_eq_range']
  exact ⟨h4, h2, h3⟩

/-- C7: `processWallets` handles accounts strictly sequentially and in list
order: the run's trace is the concatenation of the per-account traces for
indices `0, 1, …, n-1` in that order, and every event of iteration `i`
belongs to account `i`. -/
theorem c7_sequential {W : Type} (tenv : TonEnv W) (senv : SvcEnv)
    (action : String) (queryIds : List String) (walletData : List WalletEntry)
    (version platform : String) :
    (processWallets tenv senv action queryIds walletData version platform).events =
      (List.range queryIds.length).flatMap
        (fun i => (runIteration tenv senv action platform version queryIds walletData i).events) ∧
    (∀ i, ∀ e ∈ (runIteration tenv senv action platform version queryIds walletData i).events,
      e.idx = i) := by
  obtain ⟨h1, -⟩ := processWalletsFrom_spec tenv senv action queryIds walletData
    version platform queryIds.length 0
  rw [List.range_eq_range']
  exact ⟨h1, fun i => runIteration_idx tenv senv action platform version queryIds walletData i⟩

/-- Witness for C7 on a concrete two-account Blum run: the trace is the
two iteration traces in order, and the membership hypothesis of the second
conjunct is discharged on a concrete event. -/
theorem c7_witness :
    (processWallets wTon svcOk "1" ["q1", "q2"] [entry24, entry24] "v4" "blum").events =
      (List.range 2).flatMap
        (fun i => (runIteration wTon svcOk "1" "blum" "v4" ["q1", "q2"] [entry24, entry24] i).events) ∧
    (Event.connect 1).idx = 1 := by
  refine ⟨?_, ?_⟩
  · have h := (c7_sequential wTon svcOk "1" ["q1", "q2"] [entry24, entry24] "v4" "blum").1
    simpa using h
  · exact (c7_sequential wTon svcOk "1" ["q1", "q2"] [entry24, entry24] "v4" "blum").2 1
      (Event.connect 1) (by decide)



/-- C3: within each account the service calls happen in phase order (login
or token acquisition, then initialization, then the selected wallet
operation), and an account whose login or token acquisition yields no token
is counted as failed with initialization and wallet operation skipped. -/
theorem c3_per_account_order {W : Type} (tenv : TonEnv W) (senv : SvcEnv)
    (action : String) (queryIds : List String) (walletData : List WalletEntry)
    (version platform : String) (i : Nat) :
    ((processWallets tenv senv action queryIds walletData version platform).events.filter
        (fun e => e.idx == i)).Pairwise (fun a b => a.phase ≤ b.phase) ∧
    (platform = "paws" → senv.pawsLogin i = .ok none →
      (runIteration tenv senv action platform version queryIds walletData i).succeeded = false ∧
      ((runIteration tenv senv action platform version queryIds walletData i).events.filter
        (fun e => e.isInit || e.isOp)) = []) ∧
    (platform = "yescoin" → senv.yescoinLogin i = .ok none →
      (runIteration tenv senv action platform version queryIds walletData i).succeeded = false ∧
      ((runIteration tenv senv action platform version queryIds walletData i).events.filter
        (fun e => e.isInit || e.isOp)) = []) ∧
    (platform ≠ "paws" → platform ≠ "tsubasa" → platform ≠ "yescoin" →
      senv.blumGetNewToken i = .ok none →
      (runIteration tenv senv action platform version queryIds walletData i).succeeded = false ∧
      ((runIteration tenv senv action platform version queryIds walletData i).events.filter
        (fun e => e.isInit || e.isOp)) = []) := by
  refine ⟨?_, ?_, ?_, ?_⟩
  · rw [processWallets_filter_idx]
    split
    · exact runIteration_sorted tenv senv action platform version queryIds walletData i
    · exact List.Pairwise.nil
  · intro hp hl
    subst hp
    exact runIteration_paws_no_token tenv senv action version queryIds walletData i hl
  · intro hp hl
    subst hp
    exact runIteration_yescoin_no_token tenv senv action version queryIds walletData i hl
  · intro hp1 hp2 hp3 hl
    exact runIteration_blum_no_token tenv senv action platform version queryIds walletData i
      hp1 hp2 hp3 hl

/-- Witness for C3 on a concrete Blum run whose token acquisition yields no
token: the account fails and no initialization or wallet operation happens. -/
theorem c3_witness :
    (runIteration wTon svcNoToken "1" "blum" "v4" ["q1", "q2"]
      [entry24, entry24] 0).succeeded = false ∧
    ((runIteration wTon svcNoToken "1" "blum" "v4" ["q1", "q2"]
      [entry24, entry24] 0).events.filter (fun e => e.isInit || e.isOp)) = [] :=
  (c3_per_account_order wTon svcNoToken "1" ["q1", "q2"] [entry24, entry24]
    "v4" "blum" 0).2.2.2 (by decide) (by decide) (by decide) (by decide)

/-- C6: during one run of `processWallets`, each account gets at most one
login or token acquisition, at most one initialization, at most one
`connectWallet` and at most one `disconnectWallet` call; a failed operation
is never retried. -/
theorem c6_at_most_once {W : Type} (tenv : TonEnv W) (senv : SvcEnv)
    (action : String) (queryIds : List String) (walletData : List WalletEntry)
    (version platform : String) (i : Nat) :
    ((((processWallets tenv senv action queryIds walletData version platform).events.filter
        (fun e => e.idx == i)).filter Event.isAuth).length ≤ 1) ∧
    ((((processWallets tenv senv action queryIds walletData version platform).events.filter
        (fun e => e.idx == i)).filter Event.isInit).length ≤ 1) ∧
    ((((processWallets tenv senv action queryIds walletData version platform).events.filter
        (fun e => e.idx == i)).filter Event.isConnect).length ≤ 1) ∧
    ((((processWallets tenv senv action queryIds walletData version platform).events.filter
        (fun e => e.idx == i)).filter Event.isDisconnect).length ≤ 1) := by
  rw [processWallets_filter_idx]
  split
  · obtain ⟨h1, h2, h3, h4, -, -⟩ :=
      runIteration_counts tenv senv action platform version queryIds walletData i
    exact ⟨h1, h2, h3, h4⟩
  · simp

/-- C8: `totalBalance` is exactly `0` unless the action is connect (`"1"`)
and the platform is Blum; it is the sum of the per-account contributions,
and a nonzero contribution only arises from a successfully connected Blum
account whose balance query returned a value. -/
theorem c8_balance_frame {W : Type} (tenv : TonEnv W) (senv : SvcEnv)
    (action : String) (queryIds : List String) (walletData : List WalletEntry)
    (version platform : String) :
    (¬(action = "1" ∧ platform = "blum") →
      (processWallets tenv senv action queryIds walletData version platform).totalBalance = 0) ∧
    ((processWallets tenv senv action queryIds walletData version platform).totalBalance =
      ((List.range queryIds.length).map
        (fun i => (runIteration tenv senv action platform version queryIds walletData i).balanceAdd)).sum) ∧
    (∀ i, (runIteration tenv senv action platform version queryIds walletData i).balanceAdd ≠ 0 →
      action = "1" ∧ platform = "blum" ∧ senv.connectWallet i = .ok true ∧
      ∃ b, senv.getBalance i = .ok (some b) ∧
        (runIteration tenv senv action platform version queryIds walletData i).balanceAdd = b) := by
  obtain ⟨-, -, -, -, h5⟩ := processWalletsFrom_spec tenv senv action queryIds walletData
    version platform queryIds.length 0
  have hsum : (processWallets tenv senv action queryIds walletData version platform).totalBalance =
      ((List.range queryIds.length).map
        (fun i => (runIteration tenv senv action platform version queryIds walletData i).balanceAdd)).sum := by
    rw [List.range_eq_range']
    exact h5
  refine ⟨?_, hsum, ?_⟩
  · intro hna
    rw [hsum]
    apply List.sum_eq_zero
    intro x hx
    obtain ⟨k, hk, rfl⟩ := List.mem_map.1 hx
    rcases runIteration_balance tenv senv action platform version queryIds walletData k with h | h
    · exact h
    · rw [h]
      exact actionPhase_balance_zero senv action platform k hna
  · intro i hnz
    rcases runIteration_balance tenv senv action platform version queryIds walletData i with h | h
    · exact absurd h hnz
    · rw [h] at hnz ⊢
      exact actionPhase_balance_nonzero senv action platform i hnz

/-- Witness for C8: a display run has total balance `0`, and on a concrete
connected Blum account the nonzero contribution comes from the balance
query's value. -/
theorem c8_witness :
    (processWallets wTon svcOk "3" ["q1"] [entry24] "v4" "blum").totalBalance = 0 ∧
    ("1" = "1" ∧ "blum" = "blum" ∧ svcOk.connectWallet 0 = .ok true ∧
      ∃ b, svcOk.getBalance 0 = .ok (some b) ∧
        (runIteration wTon svcOk "1" "blum" "v4" ["q1"] [entry24] 0).balanceAdd = b) :=
  ⟨(c8_balance_frame wTon svcOk "3" ["q1"] [entry24] "v4" "blum").1 (by decide),
   (c8_balance_frame wTon svcOk "1" ["q1"] [entry24] "v4" "blum").2.2 0 (by decide)⟩



/-- Counterexample to C5 as stated: in this two-account Blum run both token
acquisitions yield no token, both accounts are processed (and counted as
failed), yet the trace contains no delay event at all — so no delay is
waited between the two consecutive accounts. -/
theorem c5_counterexample :
    ((processWallets wTon svcNoToken "1" ["q1", "q2"] [entry24, entry24]
        "v4" "blum").events.filter Event.isDelay) = [] ∧
    (processWallets wTon svcNoToken "1" ["q1", "q2"] [entry24, entry24]
      "v4" "blum").failCount = 2 := by
  decide

/-- C5 (amended): any delay event of a run sleeps
`Math.floor(r * 2001) + 1000` milliseconds, which lies between 1000 and 3000
inclusive for `0 ≤ r < 1`; a delay occurs only after a non-final account
whose iteration ran to completion — its setup ended `ready` (no thrown
error, no `continue` on a failed check) and its action phase did not throw —
and, conversely, an account whose setup threw or was skipped, or whose
action phase threw, inserts no delay before the next account; in particular
no delay follows the final account. -/
theorem c5_delay_range {W : Type} (tenv : TonEnv W) (senv : SvcEnv)
    (action : String) (queryIds : List String) (walletData : List WalletEntry)
    (version platform : String) :
    (∀ r : Rat, 0 ≤ r → r < 1 → 1000 ≤ delayMs r ∧ delayMs r ≤ 3000) ∧
    (∀ e ∈ (processWallets tenv senv action queryIds walletData version platform).events,
      e.isDelay = true →
      ∃ i, i < queryIds.length - 1 ∧ e = .delay i (delayMs (senv.random i)) ∧
        (∃ pw, (setupPhase tenv senv platform version walletData i).2 = .ready pw) ∧
        (actionPhase senv action platform i).2.1 ≠ .threw) ∧
    (∀ i, ((setupPhase tenv senv platform version walletData i).2 = .threw ∨
        (setupPhase tenv senv platform version walletData i).2 = .skipped ∨
        (actionPhase senv action platform i).2.1 = .threw) →
      ((runIteration tenv senv action platform version queryIds walletData i).events.filter
        Event.isDelay) = []) := by
  refine ⟨?_, ?_, ?_⟩
  · intro r h0 h1
    have hdpos : 0 < r.den := r.pos
    have hn0 : 0 ≤ r.num := Rat.num_nonneg.2 h0
    have key : ∀ (n : Int) (d : Nat), 0 < d → ((n : Rat) / (d : Rat) < 1) → n < (d : Int) := by
      intro n d hd hlt
      by_contra hle
      push_neg at hle
      have hge : (1 : Rat) ≤ (n : Rat) / (d : Rat) := by
        rw [le_div_iff₀ (by exact_mod_cast hd)]
        have : ((d : Int) : Rat) ≤ (n : Rat) := by exact_mod_cast hle
        simpa using this
      exact absurd hlt (not_lt.2 hge)
    have hnd : r.num < (r.den : Int) := by
      refine key r.num r.den hdpos ?_
      rw [Rat.num_div_den]
      exact h1
    have hdpos2 : (0 : Int) < (r.den : Int) := by exact_mod_cast hdpos
    unfold delayMs
    have h2001 : ((3000 : Int) - 1000 + 1) = 2001 := by norm_num
    rw [h2001, Int.fdiv_eq_ediv _ (Int.le_of_lt hdpos2)]
    have hq0 : (0 : Int) ≤ r.num * 2001 / (r.den : Int) :=
      Int.ediv_nonneg (by positivity) (Int.le_of_lt hdpos2)
    have hqlt : r.num * 2001 / (r.den : Int) < 2001 := by
      rw [Int.ediv_lt_iff_lt_mul hdpos2]
      omega
    omega
  · intro e he hd
    obtain ⟨h1, -⟩ := processWalletsFrom_spec tenv senv action queryIds walletData
      version platform queryIds.length 0
    rw [processWallets, h1] at he
    obtain ⟨k, hk, hek⟩ := List.mem_flatMap.1 he
    obtain ⟨hlt, heq, hready, hnthrew⟩ := runIteration_delay tenv senv action platform
      version queryIds walletData k e hek hd
    exact ⟨k, hlt, heq, hready, hnthrew⟩
  · intro i h
    exact runIteration_no_delay_skip tenv senv action platform version queryIds
      walletData i h

/-- Witness for C5 (amended): `delayMs 0 = 1000` lies in range; the delay
event after the first of two successfully connected accounts is the one
computed from `Math.random()` and its iteration completed; and a concrete
account skipped on a failed token acquisition inserts no delay. -/
theorem c5_witness :
    (1000 ≤ delayMs 0 ∧ delayMs 0 ≤ 3000) ∧
    (∃ i, i < (["q1", "q2"] : List String).length - 1 ∧
      (Event.delay 0 1000 : Event) = .delay i (delayMs (svcOk.random i)) ∧
      (∃ pw, (setupPhase wTon svcOk "blum" "v4" [entry24, entry24] i).2 = .ready pw) ∧
      (actionPhase svcOk "1" "blum" i).2.1 ≠ .threw) ∧
    ((runIteration wTon svcNoToken "1" "blum" "v4" ["q1", "q2"]
      [entry24, entry24] 0).events.filter Event.isDelay) = [] :=
  ⟨(c5_delay_range wTon svcOk "1" ["q1", "q2"] [entry24, entry24] "v4" "blum").1 0
      (by decide) (by decide),
   (c5_delay_range wTon svcOk "1" ["q1", "q2"] [entry24, entry24] "v4" "blum").2.1
      (Event.delay 0 1000) (by decide) (by decide),
   (c5_delay_range wTon svcNoToken "1" ["q1", "q2"] [entry24, entry24] "v4" "blum").2.2 0
      (Or.inr (Or.inl (by decide)))⟩

end Connect
